import Mathlib

/-!
Verification notes.

# Verification of the electricity price windowing and recommendation engine

Shallow embedding of the core logic of the `walk-buddy-logger` repository:

* `supabase/functions/get-electricity-recommendations/index.ts` — the
  recommendation engine (future-window filtering, first-fit single-window
  selection, consecutive-"great"-window merging);
* `supabase/functions/fetch-electricity-prices/index.ts` — price ingestion
  (simulated fallback series), percentile breakpoints, the label ladder and
  the window builder;
* `supabase/functions/get-hourly-historical-averages/index.ts` — per-hour
  historical averaging.

Timestamps are modelled as integers (epoch instants: JavaScript `Date`
comparisons are numeric comparisons of epoch milliseconds), prices as
rationals (JavaScript numbers; all arithmetic appearing in the verified
paths is exact on the decimal values involved), and labels as the literal
strings the code stores.  Database reads/writes and `Date` locale
conversions are external collaborators: functions receive the rows a query
would return and produce the values the code would write.
-/

namespace WalkBuddy

/-- A row of the `electricity_windows` table as the recommendation engine
reads it (`get-electricity-recommendations/index.ts`).  `start_time` and
`end_time` are epoch instants; `label` is one of the literal strings
`"great" | "good" | "okay" | "avoid"`. -/
structure PriceWindow where
  start_time : ℤ
  end_time : ℤ
  zone : String
  label : String
  avg_price : ℚ
  percentile : ℤ
  duration_minutes : ℤ
  deriving Repr, DecidableEq

/-- Line 78 of `get-electricity-recommendations/index.ts`:
`windows.filter(w => new Date(w.end_time) > now)`. -/
def futureWindows (now : ℤ) (windows : List PriceWindow) : List PriceWindow :=
  windows.filter (fun w => now < w.end_time)

/-- Lines 83–85 of `get-electricity-recommendations/index.ts`:
`futureWindows.filter(w => w.label === 'great' && w.duration_minutes >= requiredDuration)`. -/
def greatWindows (requiredDuration : ℤ) (fw : List PriceWindow) : List PriceWindow :=
  fw.filter (fun w => w.label = "great" ∧ requiredDuration ≤ w.duration_minutes)

/-- The inner loop of `get-electricity-recommendations/index.ts` lines
98–114: starting from a "great" window `first` with accumulated duration
`total`, keep absorbing the immediately following windows while they are
labelled `"great"`; as soon as the running total reaches
`requiredDuration`, return the merged window — `first` with `end_time`
replaced by the satisfying window's `end_time` and `duration_minutes`
replaced by the running total (lines 104–108).  A non-"great" window
aborts the run (`break`, line 112). -/
def mergeFrom (requiredDuration : ℤ) (first : PriceWindow) (total : ℤ) :
    List PriceWindow → Option PriceWindow
  | [] => none
  | w :: rest =>
    if w.label = "great" then
      let total' := total + w.duration_minutes
      if requiredDuration ≤ total' then
        some { first with end_time := w.end_time, duration_minutes := total' }
      else
        mergeFrom requiredDuration first total' rest
    else
      none

/-- The outer loop of `get-electricity-recommendations/index.ts` lines
93–118: scan the future windows in order; at each `"great"` window start a
run seeded with that window's own `duration_minutes` (line 95) and try to
complete it with `mergeFrom`; the first completed run wins (line 116). -/
def mergeConsecutive (requiredDuration : ℤ) : List PriceWindow → Option PriceWindow
  | [] => none
  | w :: rest =>
    if w.label = "great" then
      match mergeFrom requiredDuration w w.duration_minutes rest with
      | some b => some b
      | none => mergeConsecutive requiredDuration rest
    else
      mergeConsecutive requiredDuration rest

/-- Lines 88–119 of `get-electricity-recommendations/index.ts`: `bestWindow`
is the head of `greatWindows` when that list is non-empty (line 90), and
otherwise the result of the consecutive-window merge fallback. -/
def bestWindow (requiredDuration : ℤ) (fw : List PriceWindow) : Option PriceWindow :=
  match greatWindows requiredDuration fw with
  | w :: _ => some w
  | [] => mergeConsecutive requiredDuration fw

/-- The full selection as a function of `now`: filter to future windows,
then pick the best window among them. -/
def recommend (requiredDuration : ℤ) (now : ℤ) (windows : List PriceWindow) :
    Option PriceWindow :=
  bestWindow requiredDuration (futureWindows now windows)

/-- A price observation as produced and consumed by
`fetch-electricity-prices/index.ts` (interface `PriceData`): an epoch
instant and the price `lmp_usd_mwh`. -/
structure PricePoint where
  timestamp : ℤ
  lmp_usd_mwh : ℚ
  deriving Repr, DecidableEq

/-- Lines 177–189 of `fetch-electricity-prices/index.ts`: the label
ladder.  Ties at a breakpoint take the `≤` branch, i.e. the cheaper
label. -/
def labelOf (p25v p50v p75v v : ℚ) : String :=
  if v ≤ p25v then "great"
  else if v ≤ p50v then "good"
  else if v ≤ p75v then "okay"
  else "avoid"

/-- Lines 177–189 of `fetch-electricity-prices/index.ts`: the `percentile`
value recorded alongside the label (the upper breakpoint rank defining the
label). -/
def percentileOf (p25v p50v p75v v : ℚ) : ℤ :=
  if v ≤ p25v then 25
  else if v ≤ p50v then 50
  else if v ≤ p75v then 75
  else 100

/-- Semantics of the JavaScript expression `xs[i] || d` as used on lines
162–164 of `fetch-electricity-prices/index.ts`: an out-of-range index
yields `undefined` (falsy) and the value `0` is itself falsy, so both
produce the default `d`; any other number is returned unchanged.  (`NaN`
is also falsy but cannot arise here: the stored prices are parsed finite
numbers.) -/
def jsIndexOr (xs : List ℚ) (i : ℕ) (d : ℚ) : ℚ :=
  match xs.get? i with
  | some v => if v = 0 then d else v
  | none => d

/-- Line 162 of `fetch-electricity-prices/index.ts`:
`sortedPrices[Math.floor(sortedPrices.length * 0.25)] || 25`.
`Math.floor(n * 0.25)` is exactly `n / 4` in natural division (`0.25` is
exactly representable and `n * 0.25` is exact for any realistic `n`). -/
def p25Of (sortedPrices : List ℚ) : ℚ :=
  jsIndexOr sortedPrices (sortedPrices.length / 4) 25

/-- Line 163 of `fetch-electricity-prices/index.ts`:
`sortedPrices[Math.floor(sortedPrices.length * 0.50)] || 35`. -/
def p50Of (sortedPrices : List ℚ) : ℚ :=
  jsIndexOr sortedPrices (sortedPrices.length / 2) 35

/-- Line 164 of `fetch-electricity-prices/index.ts`:
`sortedPrices[Math.floor(sortedPrices.length * 0.75)] || 45`.
`Math.floor(n * 0.75)` is exactly `3 * n / 4` in natural division. -/
def p75Of (sortedPrices : List ℚ) : ℚ :=
  jsIndexOr sortedPrices (3 * sortedPrices.length / 4) 45

/-- Semantics of `Math.round(x * 100) / 100` (rounding to two decimal
places, used on lines 91, 121 and 226 of
`fetch-electricity-prices/index.ts`); JavaScript `Math.round` rounds half
toward positive infinity, i.e. `Math.round(x) = ⌊x + 1/2⌋`. -/
def round2 (x : ℚ) : ℚ :=
  (⌊x * 100 + 1 / 2⌋ : ℤ) / 100

/-- The window accumulator of `fetch-electricity-prices/index.ts` lines
191–210: a `PriceWindow` under construction, which additionally carries
the list of prices folded in so far (`currentWindow.prices`), used to
recompute the running average; the `prices` field is stripped before the
row is inserted (line 224). -/
structure BuilderWindow where
  start_time : ℤ
  end_time : ℤ
  zone : String
  label : String
  avg_price : ℚ
  percentile : ℤ
  duration_minutes : ℤ
  prices : List ℚ
  deriving Repr, DecidableEq

/-- One iteration of the window-building loop, lines 172–211 of
`fetch-electricity-prices/index.ts`: classify the observation; if there is
no open window or its label differs, emit the open window and seed a new
one (`duration_minutes = 60`, `avg_price` = this value); otherwise extend
the open window (`end_time` = this timestamp, `duration_minutes += 60`,
push the value and recompute `avg_price` as the arithmetic mean of the
pushed values). -/
def buildStep (p25v p50v p75v : ℚ) (st : List BuilderWindow × Option BuilderWindow)
    (p : PricePoint) : List BuilderWindow × Option BuilderWindow :=
  let l := labelOf p25v p50v p75v p.lmp_usd_mwh
  let pc := percentileOf p25v p50v p75v p.lmp_usd_mwh
  match st with
  | (ws, none) =>
    (ws, some { start_time := p.timestamp, end_time := p.timestamp, zone := "J",
                label := l, avg_price := p.lmp_usd_mwh, percentile := pc,
                duration_minutes := 60, prices := [p.lmp_usd_mwh] })
  | (ws, some cur) =>
    if cur.label = l then
      let ps := cur.prices ++ [p.lmp_usd_mwh]
      (ws, some { cur with end_time := p.timestamp,
                           duration_minutes := cur.duration_minutes + 60,
                           prices := ps,
                           avg_price := ps.sum / (ps.length : ℚ) })
    else
      (ws ++ [cur],
       some { start_time := p.timestamp, end_time := p.timestamp, zone := "J",
              label := l, avg_price := p.lmp_usd_mwh, percentile := pc,
              duration_minutes := 60, prices := [p.lmp_usd_mwh] })

/-- Lines 169–215 of `fetch-electricity-prices/index.ts`: fold the pricing
series through `buildStep` and emit the final open window, if any. -/
def buildWindows (p25v p50v p75v : ℚ) (prices : List PricePoint) : List BuilderWindow :=
  match prices.foldl (buildStep p25v p50v p75v) ([], none) with
  | (ws, none) => ws
  | (ws, some cur) => ws ++ [cur]

/-- Lines 224–227 of `fetch-electricity-prices/index.ts`: the row actually
inserted into `electricity_windows` — the accumulator minus its `prices`
list, with `avg_price` rounded to two decimal places at that point only. -/
def toInsertRow (w : BuilderWindow) : PriceWindow :=
  { start_time := w.start_time, end_time := w.end_time, zone := w.zone,
    label := w.label, avg_price := round2 w.avg_price,
    percentile := w.percentile, duration_minutes := w.duration_minutes }

/-- Lines 108–124 of `fetch-electricity-prices/index.ts`: the simulated
fallback series.  For each hour `i < 24` the price is
`Math.max(10, 30 + Math.sin((i - 6) * Math.PI / 12) * 15 + (Math.random() * 10 - 5))`
rounded to two decimals; the sinusoidal term and the random term are
real-valued environment inputs, passed here as the functions `hourFactor`
and `noise` (in the source they satisfy `|hourFactor i| ≤ 15` and
`-5 ≤ noise i < 5`, but nothing below needs those bounds: the outer
`Math.max(10, ·)` already floors the price).  The timestamp of point `i`
is today's date with the time set to hour `i` (`setHours(i, 0, 0, 0)`),
modelled as `dayStart + i`. -/
def simulatedPrices (dayStart : ℤ) (hourFactor noise : ℕ → ℚ) : List PricePoint :=
  (List.range 24).map fun (i : ℕ) =>
    { timestamp := dayStart + (i : ℤ),
      lmp_usd_mwh := round2 (max 10 (30 + hourFactor i + noise i)) }

/-- Outcome of one ingestion call, lines 240–252 of
`fetch-electricity-prices/index.ts`: the JSON body of the success
response. -/
structure IngestResult where
  success : Bool
  prices : ℕ
  windows : ℕ
  p25 : ℚ
  p50 : ℚ
  p75 : ℚ
  dataSource : String
  deriving Repr, DecidableEq

/-- Lines 27–125 of `fetch-electricity-prices/index.ts`: obtain the price
series.  The entire upstream interaction (HTTP status check on line 50,
required-column check on line 63, zero-matching-rows check on line 97, and
any network failure) is a single `try` block whose failure modes all throw
and land in the `catch` on line 103, which switches `dataSource` to
`"simulated"` and synthesizes the fallback series; a successful upstream
fetch keeps the initial `dataSource = "real-time"`.  The upstream outcome
is passed in as an `Except`. -/
def fetchPricesOrSimulate (upstream : Except String (List PricePoint))
    (dayStart : ℤ) (hourFactor noise : ℕ → ℚ) : List PricePoint × String :=
  match upstream with
  | Except.ok ps => (ps, "real-time")
  | Except.error _ => (simulatedPrices dayStart hourFactor noise, "simulated")

/-- The ingestion pipeline of `fetch-electricity-prices/index.ts` (lines
27–252) with the store modelled as an external collaborator that succeeds:
obtain the series (real or simulated), compute the breakpoints from the
ascending-sorted 30-day historical sample the store query returns, build
the windows, and return the success payload (`success: true`, the count of
prices, the count of windows, the percentiles and the data source). -/
def ingest (upstream : Except String (List PricePoint)) (dayStart : ℤ)
    (hourFactor noise : ℕ → ℚ) (historicalSorted : List ℚ) : IngestResult :=
  let pr := fetchPricesOrSimulate upstream dayStart hourFactor noise
  let bp25 := p25Of historicalSorted
  let bp50 := p50Of historicalSorted
  let bp75 := p75Of historicalSorted
  let ws := buildWindows bp25 bp50 bp75 pr.1
  { success := true, prices := pr.1.length, windows := ws.length,
    p25 := bp25, p50 := bp50, p75 := bp75, dataSource := pr.2 }

/-- A price observation as consumed by
`get-hourly-historical-averages/index.ts`: the code derives
`ts.getDay()` and `ts.getHours()` (local day-of-week and hour-of-day)
from the stored timestamp; those two derived coordinates and the value
are what the averaging logic reads, so the observation is modelled by
them directly. -/
structure PriceObs where
  dayOfWeek : ℕ
  hour : ℕ
  value : ℚ
  deriving Repr, DecidableEq

/-- Lines 46–60 of `get-hourly-historical-averages/index.ts`: the
`hourlyData` dictionary, mapping an hour to the list of prices (in input
order) of the observations whose day-of-week equals today's; hours never
touched hold no entry, modelled as the empty list. -/
def hourlyData (currentDayOfWeek : ℕ) (prices : List PriceObs) : ℕ → List ℚ :=
  prices.foldl
    (fun acc p =>
      if p.dayOfWeek = currentDayOfWeek then
        fun h => if h = p.hour then acc h ++ [p.value] else acc h
      else acc)
    (fun _ => [])

/-- One entry of the `hourlyAverages` response array of
`get-hourly-historical-averages/index.ts` (lines 72–76). -/
structure HourlyAverage where
  hour : ℕ
  avgPrice : Option ℚ
  sampleCount : ℕ
  deriving Repr, DecidableEq

/-- Lines 64–77 of `get-hourly-historical-averages/index.ts`: for every
hour `0 ≤ h < 24`, in order, emit the arithmetic mean of that hour's
collected prices (`null` when there are none) and the sample count. -/
def hourlyAverages (currentDayOfWeek : ℕ) (prices : List PriceObs) :
    List HourlyAverage :=
  (List.range 24).map fun h =>
    let ps := hourlyData currentDayOfWeek prices h
    { hour := h,
      avgPrice := if 0 < ps.length then
          some (ps.foldl (fun sum p => sum + p) 0 / (ps.length : ℚ))
        else none,
      sampleCount := ps.length }

/-! ## Helper lemmas about the recommendation engine -/

lemma lt_end_of_mem_futureWindows {now : ℤ} {ws : List PriceWindow} {w : PriceWindow}
    (h : w ∈ futureWindows now ws) : now < w.end_time := by
  simp only [futureWindows, List.mem_filter, decide_eq_true_eq] at h
  exact h.2

lemma mem_of_mem_futureWindows {now : ℤ} {ws : List PriceWindow} {w : PriceWindow}
    (h : w ∈ futureWindows now ws) : w ∈ ws := by
  simp only [futureWindows, List.mem_filter] at h
  exact h.1

lemma mem_of_mem_greatWindows {req : ℤ} {fw : List PriceWindow} {w : PriceWindow}
    (h : w ∈ greatWindows req fw) : w ∈ fw := by
  simp only [greatWindows, List.mem_filter] at h
  exact h.1

lemma prop_of_mem_greatWindows {req : ℤ} {fw : List PriceWindow} {w : PriceWindow}
    (h : w ∈ greatWindows req fw) : w.label = "great" ∧ req ≤ w.duration_minutes := by
  simp only [greatWindows, List.mem_filter, decide_eq_true_eq] at h
  exact h.2

/-- Any window produced by the inner merge loop takes its `end_time` from
one of the scanned windows. -/
lemma mergeFrom_end_time {req : ℤ} {first : PriceWindow} :
    ∀ {l : List PriceWindow} {total : ℤ} {b : PriceWindow},
      mergeFrom req first total l = some b → ∃ w ∈ l, b.end_time = w.end_time := by
  intro l
  induction l with
  | nil => intro total b h; simp [mergeFrom] at h
  | cons w rest ih =>
    intro total b h
    simp only [mergeFrom] at h
    by_cases hg : w.label = "great"
    · rw [if_pos hg] at h
      by_cases hd : req ≤ total + w.duration_minutes
      · rw [if_pos hd] at h
        refine ⟨w, List.mem_cons_self _ _, ?_⟩
        cases h
        rfl
      · rw [if_neg hd] at h
        obtain ⟨u, hu, he⟩ := ih h
        exact ⟨u, List.mem_cons_of_mem _ hu, he⟩
    · rw [if_neg hg] at h
      cases h

/-- Any window produced by the merge fallback takes its `end_time` from
one of the future windows. -/
lemma mergeConsecutive_end_time {req : ℤ} :
    ∀ {l : List PriceWindow} {b : PriceWindow},
      mergeConsecutive req l = some b → ∃ w ∈ l, b.end_time = w.end_time := by
  intro l
  induction l with
  | nil => intro b h; simp [mergeConsecutive] at h
  | cons w rest ih =>
    intro b h
    simp only [mergeConsecutive] at h
    by_cases hg : w.label = "great"
    · rw [if_pos hg] at h
      cases hm : mergeFrom req w w.duration_minutes rest with
      | some b' =>
        rw [hm] at h
        cases h
        obtain ⟨u, hu, he⟩ := mergeFrom_end_time hm
        exact ⟨u, List.mem_cons_of_mem _ hu, he⟩
      | none =>
        rw [hm] at h
        obtain ⟨u, hu, he⟩ := ih h
        exact ⟨u, List.mem_cons_of_mem _ hu, he⟩
    · rw [if_neg hg] at h
      obtain ⟨u, hu, he⟩ := ih h
      exact ⟨u, List.mem_cons_of_mem _ hu, he⟩

/-- Any window returned by `bestWindow` takes its `end_time` from one of
the windows of the input list. -/
lemma bestWindow_end_time {req : ℤ} {fw : List PriceWindow} {b : PriceWindow}
    (h : bestWindow req fw = some b) : ∃ w ∈ fw, b.end_time = w.end_time := by
  unfold bestWindow at h
  cases hg : greatWindows req fw with
  | nil => rw [hg] at h; exact mergeConsecutive_end_time h
  | cons g gs =>
    rw [hg] at h
    cases h
    refine ⟨b, ?_, rfl⟩
    exact mem_of_mem_greatWindows (hg ▸ List.mem_cons_self _ _)

/-! ## C1 -/

/-- C1.  Whatever the recommendation engine returns — a single window from
step 1 or a merged run from step 2 — its `end_time` is strictly after the
`now` instant of the call: a window whose `end_time` is at or before `now`
is never recommended. -/
theorem recommendation_end_time_after_now
    (req now : ℤ) (windows : List PriceWindow) (b : PriceWindow)
    (h : recommend req now windows = some b) : now < b.end_time := by
  obtain ⟨w, hw, he⟩ := bestWindow_end_time h
  rw [he]
  exact lt_end_of_mem_futureWindows hw

/-- Witness for C1: a concrete call on one window ending at instant `60`
with `now = 0` returns that window, whose `end_time` is indeed after
`now`. -/
theorem recommendation_end_time_after_now_witness : (0 : ℤ) < 60 :=
  recommendation_end_time_after_now 90 0
    [{ start_time := 0, end_time := 60, zone := "J", label := "great",
       avg_price := 8, percentile := 25, duration_minutes := 90 }]
    { start_time := 0, end_time := 60, zone := "J", label := "great",
      avg_price := 8, percentile := 25, duration_minutes := 90 }
    (by decide)

/-! ## C2 -/

/-- C2.  Over a future-window list sorted ascending by `start_time` (the
query orders by `start_time`), whenever some `"great"` window is long
enough for the required duration, the engine picks a `"great"` window of
sufficient duration whose `start_time` is least among all such windows —
first-fit: an earlier sufficient window always beats a later one, whatever
their `avg_price`s. -/
theorem first_fit_earliest_great
    (req : ℤ) (fw : List PriceWindow)
    (hsorted : List.Sorted (fun a b => a.start_time ≤ b.start_time) fw)
    (w' : PriceWindow) (hmem : w' ∈ fw) (hgreat : w'.label = "great")
    (hdur : req ≤ w'.duration_minutes) :
    ∃ b, bestWindow req fw = some b ∧ b.label = "great" ∧
      req ≤ b.duration_minutes ∧ b ∈ fw ∧
      ∀ u ∈ fw, u.label = "great" → req ≤ u.duration_minutes →
        b.start_time ≤ u.start_time := by
  have hw' : w' ∈ greatWindows req fw := by
    simp only [greatWindows, List.mem_filter, decide_eq_true_eq]
    exact ⟨hmem, hgreat, hdur⟩
  have hsf : List.Sorted (fun a b => a.start_time ≤ b.start_time)
      (greatWindows req fw) := hsorted.filter _
  cases hg : greatWindows req fw with
  | nil => rw [hg] at hw'; cases hw'
  | cons g gs =>
    refine ⟨g, ?_, ?_, ?_, ?_, ?_⟩
    · unfold bestWindow
      rw [hg]
    · exact (prop_of_mem_greatWindows (hg ▸ List.mem_cons_self g gs)).1
    · exact (prop_of_mem_greatWindows (hg ▸ List.mem_cons_self g gs)).2
    · exact mem_of_mem_greatWindows (hg ▸ List.mem_cons_self g gs)
    · intro u hu hul hud
      have humem : u ∈ greatWindows req fw := by
        simp only [greatWindows, List.mem_filter, decide_eq_true_eq]
        exact ⟨hu, hul, hud⟩
      rw [hg] at humem hsf
      rcases List.mem_cons.mp humem with rfl | hu'
      · exact le_refl _
      · exact (List.sorted_cons.mp hsf).1 u hu'

/-- A concrete sorted pair of future windows for the C2 witness: both
`"great"` and long enough for 90 minutes, the later one cheaper
(`avg_price` 5 against 20). -/
def cheaperLaterPair : List PriceWindow :=
  [{ start_time := 0, end_time := 90, zone := "J", label := "great",
     avg_price := 20, percentile := 25, duration_minutes := 90 },
   { start_time := 90, end_time := 210, zone := "J", label := "great",
     avg_price := 5, percentile := 25, duration_minutes := 120 }]

/-- Witness for C2: on `cheaperLaterPair` the engine returns a window
starting no later than every sufficient `"great"` window — in particular
no later than the cheaper window starting at 90. -/
theorem first_fit_earliest_great_witness :
    ∃ b, bestWindow 90 cheaperLaterPair = some b ∧
      b.label = "great" ∧ (90 : ℤ) ≤ b.duration_minutes ∧
      b ∈ cheaperLaterPair ∧
      ∀ u ∈ cheaperLaterPair,
        u.label = "great" → (90 : ℤ) ≤ u.duration_minutes →
          b.start_time ≤ u.start_time :=
  first_fit_earliest_great 90 cheaperLaterPair
    (by simp only [cheaperLaterPair]; decide)
    { start_time := 0, end_time := 90, zone := "J", label := "great",
      avg_price := 20, percentile := 25, duration_minutes := 90 }
    (by simp only [cheaperLaterPair]; decide) (by decide) (by decide)

/-! ## C3 -/

/-- C3.  Merge fallback on the spec scenario: required duration 90 and two
list-consecutive future `"great"` windows of 60 minutes each, the first
spanning `[T0, T0+60]` and the second `[T0+60, T0+120]`.  No single window
is long enough, so step 2 runs and the first run already satisfies the
requirement at its second window: the result spans `T0` to `T0 + 120` with
`duration_minutes` equal to the sum `120` of the merged durations (and the
remaining fields those of the run's first window). -/
theorem merge_consecutive_scenario (T0 : ℤ) (z : String) (a1 a2 : ℚ) (pc1 pc2 : ℤ) :
    bestWindow 90
      [{ start_time := T0, end_time := T0 + 60, zone := z, label := "great",
         avg_price := a1, percentile := pc1, duration_minutes := 60 },
       { start_time := T0 + 60, end_time := T0 + 120, zone := z, label := "great",
         avg_price := a2, percentile := pc2, duration_minutes := 60 }] =
    some { start_time := T0, end_time := T0 + 120, zone := z, label := "great",
           avg_price := a1, percentile := pc1, duration_minutes := 120 } := by
  simp [bestWindow, greatWindows, mergeConsecutive, mergeFrom]

/-! ## C10 -/

/-- Every field except `end_time` and `duration_minutes` of a window
produced by the inner merge loop is the corresponding field of `first`. -/
lemma mergeFrom_copies_first {req : ℤ} {first : PriceWindow} :
    ∀ {l : List PriceWindow} {total : ℤ} {b : PriceWindow},
      mergeFrom req first total l = some b →
        b.start_time = first.start_time ∧ b.zone = first.zone ∧
        b.label = first.label ∧ b.avg_price = first.avg_price ∧
        b.percentile = first.percentile := by
  intro l
  induction l with
  | nil => intro total b h; simp [mergeFrom] at h
  | cons w rest ih =>
    intro total b h
    simp only [mergeFrom] at h
    by_cases hg : w.label = "great"
    · rw [if_pos hg] at h
      by_cases hd : req ≤ total + w.duration_minutes
      · rw [if_pos hd] at h
        cases h
        exact ⟨rfl, rfl, rfl, rfl, rfl⟩
      · rw [if_neg hd] at h
        exact ih h
    · rw [if_neg hg] at h
      cases h

/-- C10.  When the fallback synthesizes a merged recommendation, there is
a window of the scanned list — the run's first window, necessarily
labelled `"great"` — from which every field other than `end_time` and
`duration_minutes` is copied unchanged: `start_time`, `zone`, `label`,
`avg_price` and `percentile` all equal that window's values; in
particular the reported `avg_price` is the first merged window's average,
not an average over the whole merged span. -/
theorem merged_recommendation_copies_first_window (req : ℤ) :
    ∀ (fw : List PriceWindow) (b : PriceWindow),
      mergeConsecutive req fw = some b →
        ∃ w0 ∈ fw, w0.label = "great" ∧
          b.start_time = w0.start_time ∧ b.zone = w0.zone ∧
          b.label = w0.label ∧ b.avg_price = w0.avg_price ∧
          b.percentile = w0.percentile := by
  intro fw
  induction fw with
  | nil => intro b h; simp [mergeConsecutive] at h
  | cons w rest ih =>
    intro b h
    simp only [mergeConsecutive] at h
    by_cases hg : w.label = "great"
    · rw [if_pos hg] at h
      cases hm : mergeFrom req w w.duration_minutes rest with
      | some b' =>
        rw [hm] at h
        cases h
        obtain ⟨h1, h2, h3, h4, h5⟩ := mergeFrom_copies_first hm
        exact ⟨w, List.mem_cons_self _ _, hg, h1, h2, h3, h4, h5⟩
      | none =>
        rw [hm] at h
        obtain ⟨w0, hw0, hrest⟩ := ih b h
        exact ⟨w0, List.mem_cons_of_mem _ hw0, hrest⟩
    · rw [if_neg hg] at h
      obtain ⟨w0, hw0, hrest⟩ := ih b h
      exact ⟨w0, List.mem_cons_of_mem _ hw0, hrest⟩

/-- A concrete merged-run input for the C10 witness: two 60-minute
`"great"` windows with different `avg_price`s (8 then 2). -/
def mergedRunPair : List PriceWindow :=
  [{ start_time := 100, end_time := 160, zone := "J", label := "great",
     avg_price := 8, percentile := 25, duration_minutes := 60 },
   { start_time := 160, end_time := 220, zone := "J", label := "great",
     avg_price := 2, percentile := 25, duration_minutes := 60 }]

/-- Witness for C10: on `mergedRunPair` with required duration 90 the
fallback returns the merged window whose `avg_price` 8 and other copied
fields are exactly those of the run's first window. -/
theorem merged_recommendation_copies_first_window_witness :
    ∃ w0 ∈ mergedRunPair, w0.label = "great" ∧
      (100 : ℤ) = w0.start_time ∧ "J" = w0.zone ∧
      "great" = w0.label ∧ (8 : ℚ) = w0.avg_price ∧
      (25 : ℤ) = w0.percentile :=
  merged_recommendation_copies_first_window 90 mergedRunPair
    { start_time := 100, end_time := 220, zone := "J", label := "great",
      avg_price := 8, percentile := 25, duration_minutes := 120 }
    (by simp only [mergedRunPair]; decide)

/-! ## C4 -/

/-- The eight hourly observations of the window-builder scenario:
prices `[10, 10, 10, 40, 40, 15, 15, 15]` in timestamp order. -/
def scenarioSeries : List PricePoint :=
  [{ timestamp := 0, lmp_usd_mwh := 10 }, { timestamp := 1, lmp_usd_mwh := 10 },
   { timestamp := 2, lmp_usd_mwh := 10 }, { timestamp := 3, lmp_usd_mwh := 40 },
   { timestamp := 4, lmp_usd_mwh := 40 }, { timestamp := 5, lmp_usd_mwh := 15 },
   { timestamp := 6, lmp_usd_mwh := 15 }, { timestamp := 7, lmp_usd_mwh := 15 }]

/-- Evaluation of the window builder on the scenario series with
breakpoints 12 / 20 / 35. -/
lemma buildWindows_scenario_eval :
    (buildWindows 12 20 35 scenarioSeries).map
        (fun w => (w.label, w.duration_minutes, w.avg_price)) =
      [("great", 180, 10), ("avoid", 120, 40), ("good", 180, 15)] := by
  simp +decide [buildWindows, buildStep, scenarioSeries, labelOf, percentileOf]
  norm_num

/-- Counterexample to C4.  With breakpoints `p25 = 12`, `p50 = 20`,
`p75 = 35`, the builder does NOT produce the claimed window list
`great/180/10, okay/120/40, great/180/15`: the price 40 exceeds
`p75 = 35`, so the second run is labelled `"avoid"` (line 186 of
`fetch-electricity-prices/index.ts`), and the price 15 exceeds `p25 = 12`
but not `p50 = 20`, so the third run is labelled `"good"`. -/
theorem builder_scenario_counterexample :
    (buildWindows 12 20 35 scenarioSeries).map
        (fun w => (w.label, w.duration_minutes, w.avg_price)) ≠
      [("great", 180, 10), ("okay", 120, 40), ("great", 180, 15)] := by
  rw [buildWindows_scenario_eval]
  decide

/-- C4 as amended.  The builder produces exactly three windows with the
claimed durations and running-mean averages, but the labels forced by the
given breakpoints are `great`, `avoid`, `good`: the 40s exceed `p75 = 35`
and the 15s lie in `(p25, p50] = (12, 20]`.  Each window's `avg_price` is
the arithmetic mean of just its own observations. -/
theorem builder_scenario_amended :
    (buildWindows 12 20 35 scenarioSeries).map
        (fun w => (w.label, w.duration_minutes, w.avg_price)) =
      [("great", 180, 10), ("avoid", 120, 40), ("good", 180, 15)] :=
  buildWindows_scenario_eval

/-! ## C5 -/

/-- C5.  The label ladder: `"great"` exactly on `value ≤ p25`; `"good"`
exactly on `p25 < value ≤ p50`; `"okay"` exactly on
`p25 < value`, `p50 < value`, `value ≤ p75`; `"avoid"` exactly when the
value exceeds all three breakpoints.  A value equal to a breakpoint takes
the `≤` branch, i.e. always the cheaper label. -/
theorem label_ladder (p25v p50v p75v v : ℚ) :
    (labelOf p25v p50v p75v v = "great" ↔ v ≤ p25v) ∧
    (labelOf p25v p50v p75v v = "good" ↔ p25v < v ∧ v ≤ p50v) ∧
    (labelOf p25v p50v p75v v = "okay" ↔ p25v < v ∧ p50v < v ∧ v ≤ p75v) ∧
    (labelOf p25v p50v p75v v = "avoid" ↔ p25v < v ∧ p50v < v ∧ p75v < v) := by
  unfold labelOf
  by_cases h1 : v ≤ p25v
  · simp [h1]
  · by_cases h2 : v ≤ p50v
    · simp [h1, h2, not_le.mp h1]
    · by_cases h3 : v ≤ p75v
      · simp [h1, h2, h3, not_le.mp h1, not_le.mp h2]
      · simp [h1, h2, h3, not_le.mp h1, not_le.mp h2, not_le.mp h3]

/-! ## C6 -/

/-- In a list sorted ascending, entries at nondecreasing positions are
nondecreasing. -/
lemma sorted_get_le {xs : List ℚ} (hs : List.Sorted (fun a b => a ≤ b) xs)
    (i j : Fin xs.length) (hij : (i : ℕ) ≤ (j : ℕ)) : xs.get i ≤ xs.get j := by
  rcases lt_or_eq_of_le hij with h | h
  · exact List.pairwise_iff_get.mp hs i j (Fin.lt_def.mpr h)
  · rw [Fin.ext h]

/-- Counterexample to C6.  The breakpoint computation is not the pure
nearest-rank rule: the JavaScript `|| default` fallback also fires when
the indexed value is the falsy number `0`.  On the ascending-sorted
non-empty sample `[-10, 0, 0, 5]` the indexed values at ranks
`⌊4·0.25⌋ = 1` and `⌊4·0.50⌋ = 2` are both `0`, so `p25 = 25` and
`p50 = 35` (the defaults) while `p75 = 5` (the real rank-3 value), and
`p50 ≤ p75` fails. -/
theorem percentile_monotone_counterexample :
    ([(-10 : ℚ), 0, 0, 5] ≠ []) ∧
    List.Sorted (fun a b => a ≤ b) [(-10 : ℚ), 0, 0, 5] ∧
    p25Of [(-10 : ℚ), 0, 0, 5] = 25 ∧
    p50Of [(-10 : ℚ), 0, 0, 5] = 35 ∧
    p75Of [(-10 : ℚ), 0, 0, 5] = 5 ∧
    ¬ (p25Of [(-10 : ℚ), 0, 0, 5] ≤ p50Of [(-10 : ℚ), 0, 0, 5] ∧
       p50Of [(-10 : ℚ), 0, 0, 5] ≤ p75Of [(-10 : ℚ), 0, 0, 5]) := by
  decide

/-- C6 as amended.  For every non-empty ascending-sorted historical
sample none of whose values is the falsy number `0` (electricity prices
can be zero or negative, and a zero at an indexed rank silently swaps in
a default), the nearest-rank breakpoints satisfy `p25 ≤ p50 ≤ p75`. -/
theorem percentile_monotone_amended (xs : List ℚ) (hne : xs ≠ [])
    (hs : List.Sorted (fun a b => a ≤ b) xs) (hz : (0 : ℚ) ∉ xs) :
    p25Of xs ≤ p50Of xs ∧ p50Of xs ≤ p75Of xs := by
  have hn : 0 < xs.length := List.length_pos.mpr hne
  have h3 : 3 * xs.length / 4 < xs.length :=
    Nat.div_lt_of_lt_mul (by omega)
  have h1 : xs.length / 4 < xs.length := by
    calc xs.length / 4 ≤ 3 * xs.length / 4 := Nat.div_le_div_right (by omega)
    _ < xs.length := h3
  have h2 : xs.length / 2 < xs.length := Nat.div_lt_of_lt_mul (by omega)
  have nz : ∀ (i : Fin xs.length), xs.get i ≠ 0 := fun i he =>
    hz (he ▸ xs.get_mem i.1 i.2)
  have q1 : p25Of xs = xs.get ⟨xs.length / 4, h1⟩ := by
    unfold p25Of jsIndexOr
    rw [List.get?_eq_get h1]
    exact if_neg (nz _)
  have q2 : p50Of xs = xs.get ⟨xs.length / 2, h2⟩ := by
    unfold p50Of jsIndexOr
    rw [List.get?_eq_get h2]
    exact if_neg (nz _)
  have q3 : p75Of xs = xs.get ⟨3 * xs.length / 4, h3⟩ := by
    unfold p75Of jsIndexOr
    rw [List.get?_eq_get h3]
    exact if_neg (nz _)
  rw [q1, q2, q3]
  have i12 : xs.length / 4 ≤ xs.length / 2 :=
    Nat.div_le_div_left (by omega) (by omega)
  have i23 : xs.length / 2 ≤ 3 * xs.length / 4 := by
    have : xs.length / 2 = 2 * xs.length / 4 := by omega
    rw [this]
    exact Nat.div_le_div_right (by omega)
  exact ⟨sorted_get_le hs _ _ i12, sorted_get_le hs _ _ i23⟩

/-- Witness for C6 (amended): on the sorted zero-free sample
`[1, 2, 3, 4]` the breakpoints 2, 3, 4 are monotone. -/
theorem percentile_monotone_amended_witness :
    p25Of [(1 : ℚ), 2, 3, 4] ≤ p50Of [(1 : ℚ), 2, 3, 4] ∧
    p50Of [(1 : ℚ), 2, 3, 4] ≤ p75Of [(1 : ℚ), 2, 3, 4] :=
  percentile_monotone_amended [(1 : ℚ), 2, 3, 4] (by decide) (by decide) (by decide)

/-! ## C7 -/

/-- Counterexample to C7.  A non-empty sample can also trigger the
default breakpoints: on the one-element sample `[0]` every nearest-rank
index selects the value `0`, which is falsy in JavaScript, so
`sortedPrices[idx] || default` yields the defaults 25 / 35 / 45 even
though the sample is non-empty and its nearest-rank value is `0 ≠ 25`. -/
theorem breakpoint_default_counterexample :
    ([(0 : ℚ)] ≠ []) ∧
    [(0 : ℚ)].get? ([(0 : ℚ)].length / 4) = some 0 ∧
    p25Of [(0 : ℚ)] = 25 ∧ p50Of [(0 : ℚ)] = 35 ∧ p75Of [(0 : ℚ)] = 45 ∧
    (25 : ℚ) ≠ 0 := by
  decide

/-- C7 as amended.  An empty historical sample never fails and yields
exactly the fallback constants 25 / 35 / 45; a non-empty sample yields
the nearest-rank value for each breakpoint whose indexed value is
nonzero — the defaults additionally take over whenever the indexed value
is the falsy number `0`. -/
theorem breakpoint_fallback_amended :
    (p25Of [] = 25 ∧ p50Of [] = 35 ∧ p75Of [] = 45) ∧
    (∀ (xs : List ℚ) (v : ℚ),
        xs.get? (xs.length / 4) = some v → v ≠ 0 → p25Of xs = v) ∧
    (∀ (xs : List ℚ) (v : ℚ),
        xs.get? (xs.length / 2) = some v → v ≠ 0 → p50Of xs = v) ∧
    (∀ (xs : List ℚ) (v : ℚ),
        xs.get? (3 * xs.length / 4) = some v → v ≠ 0 → p75Of xs = v) := by
  refine ⟨by decide, ?_, ?_, ?_⟩ <;>
    · intro xs v hv hnz
      simp only [p25Of, p50Of, p75Of, jsIndexOr]
      rw [hv]
      exact if_neg hnz

/-- Witness for C7 (amended): the empty sample yields the defaults, and
the non-empty zero-free sample `[1, 2, 3, 4]` yields its nearest-rank
values 2, 3, 4. -/
theorem breakpoint_fallback_amended_witness :
    p25Of [(1 : ℚ), 2, 3, 4] = 2 ∧ p50Of [(1 : ℚ), 2, 3, 4] = 3 ∧
    p75Of [(1 : ℚ), 2, 3, 4] = 4 :=
  ⟨breakpoint_fallback_amended.2.1 [(1 : ℚ), 2, 3, 4] 2 (by decide) (by decide),
   breakpoint_fallback_amended.2.2.1 [(1 : ℚ), 2, 3, 4] 3 (by decide) (by decide),
   breakpoint_fallback_amended.2.2.2 [(1 : ℚ), 2, 3, 4] 4 (by decide) (by decide)⟩

/-! ## C8 -/

/-- Rounding to two decimals preserves the simulated price floor. -/
lemma round2_ge_ten {x : ℚ} (h : 10 ≤ x) : 10 ≤ round2 x := by
  have h1 : (1000 : ℤ) ≤ ⌊x * 100 + 1 / 2⌋ := by
    rw [Int.le_floor]
    push_cast
    linarith
  have h2 : ((1000 : ℤ) : ℚ) ≤ ((⌊x * 100 + 1 / 2⌋ : ℤ) : ℚ) := by
    exact_mod_cast h1
  unfold round2
  linarith

/-- C8.  Whenever the upstream feed fetch fails — the `Except.error`
covers a non-success HTTP status, a network error, missing required
columns and zero matching zone rows, which all throw into the same
`catch` — ingestion still succeeds: it returns `success: true` with a
price count of exactly 24, tagged `dataSource = "simulated"`, the
synthesized series is never empty, and every synthesized price is at
least 10 (so the floor price is positive), whatever the sinusoidal and
random components are. -/
theorem ingest_simulated_fallback (e : String) (dayStart : ℤ)
    (hourFactor noise : ℕ → ℚ) (historicalSorted : List ℚ) :
    (ingest (Except.error e) dayStart hourFactor noise historicalSorted).success = true ∧
    (ingest (Except.error e) dayStart hourFactor noise historicalSorted).prices = 24 ∧
    (ingest (Except.error e) dayStart hourFactor noise historicalSorted).dataSource
      = "simulated" ∧
    simulatedPrices dayStart hourFactor noise ≠ [] ∧
    ∀ p ∈ simulatedPrices dayStart hourFactor noise, 10 ≤ p.lmp_usd_mwh := by
  refine ⟨rfl, ?_, rfl, ?_, ?_⟩
  · simp [ingest, fetchPricesOrSimulate, simulatedPrices]
  · simp [simulatedPrices]
  · intro p hp
    simp only [simulatedPrices, List.mem_map] at hp
    obtain ⟨i, _, rfl⟩ := hp
    exact round2_ge_ten (le_max_left _ _)

/-- Witness for C8: a concrete failed fetch (message "HTTP 500"), zero
sinusoidal and random components, empty history.  The response succeeds
with 24 simulated prices, and the hour-0 price — `round2 (max 10 30)` —
is at least 10. -/
theorem ingest_simulated_fallback_witness :
    (ingest (Except.error "HTTP 500") 0 (fun _ => 0) (fun _ => 0) []).success = true ∧
    (ingest (Except.error "HTTP 500") 0 (fun _ => 0) (fun _ => 0) []).prices = 24 ∧
    (ingest (Except.error "HTTP 500") 0 (fun _ => 0) (fun _ => 0) []).dataSource
      = "simulated" ∧
    (10 : ℚ) ≤ round2 (max 10 (30 + 0 + 0)) := by
  obtain ⟨h1, h2, h3, _, h5⟩ :=
    ingest_simulated_fallback "HTTP 500" 0 (fun _ => 0) (fun _ => 0) []
  refine ⟨h1, h2, h3, ?_⟩
  refine h5 { timestamp := 0 + (0 : ℕ), lmp_usd_mwh := round2 (max 10 (30 + 0 + 0)) } ?_
  simp only [simulatedPrices, List.mem_map]
  exact ⟨0, by simp, rfl⟩

/-! ## C9 -/

/-- Unrolling the dictionary-building fold of
`get-hourly-historical-averages/index.ts`: starting from any partial
dictionary, the prices collected for hour `h` are the already-collected
ones followed by the values, in input order, of the observations matching
today's day-of-week and the hour `h`. -/
lemma hourlyData_foldl (dow h : ℕ) :
    ∀ (prices : List PriceObs) (acc : ℕ → List ℚ),
      (prices.foldl
        (fun acc p =>
          if p.dayOfWeek = dow then
            fun h' => if h' = p.hour then acc h' ++ [p.value] else acc h'
          else acc)
        acc) h =
      acc h ++ (prices.filter
        (fun p => p.dayOfWeek = dow ∧ p.hour = h)).map PriceObs.value := by
  intro prices
  induction prices with
  | nil => intro acc; simp
  | cons p rest ih =>
    intro acc
    simp only [List.foldl_cons]
    rw [ih]
    by_cases h1 : p.dayOfWeek = dow
    · by_cases h2 : h = p.hour
      · simp [h1, h2, List.filter_cons, List.append_assoc]
      · have h2' : ¬ p.hour = h := fun he => h2 he.symm
        simp [h1, h2, h2', List.filter_cons]
    · simp [h1, List.filter_cons]

/-- The collected prices for hour `h` are exactly the values of the
matching observations. -/
lemma hourlyData_eq_filter (dow : ℕ) (prices : List PriceObs) (h : ℕ) :
    hourlyData dow prices h =
      (prices.filter (fun p => p.dayOfWeek = dow ∧ p.hour = h)).map PriceObs.value := by
  unfold hourlyData
  rw [hourlyData_foldl]
  simp

/-- C9.  `hourlyAverages` always returns exactly 24 entries, and the
entry at position `h < 24` carries hour `h`, the count of observations
matching today's day-of-week at that hour, and — when at least one
matches — the arithmetic mean of exactly those observations' values;
an hour with zero matching observations is still present, with
`avgPrice = none` and `sampleCount = 0`. -/
theorem hourly_averages_all_24_hours (dow : ℕ) (prices : List PriceObs) :
    (hourlyAverages dow prices).length = 24 ∧
    ∀ h : ℕ, h < 24 →
      (hourlyAverages dow prices).get? h = some
        { hour := h,
          avgPrice :=
            if 0 < ((prices.filter
                (fun p => p.dayOfWeek = dow ∧ p.hour = h)).map PriceObs.value).length
            then some (((prices.filter
                (fun p => p.dayOfWeek = dow ∧ p.hour = h)).map PriceObs.value).foldl
                  (fun sum p => sum + p) 0 /
                (((prices.filter
                  (fun p => p.dayOfWeek = dow ∧ p.hour = h)).map PriceObs.value).length : ℚ))
            else none,
          sampleCount := ((prices.filter
            (fun p => p.dayOfWeek = dow ∧ p.hour = h)).map PriceObs.value).length } := by
  constructor
  · simp [hourlyAverages]
  · intro h hh
    unfold hourlyAverages
    rw [List.get?_map, List.get?_range hh]
    simp [hourlyData_eq_filter]

/-- Concrete observations for the C9 witness: today is day-of-week 2;
two observations match (day 2, hour 5, values 10 and 20) and one is from
another day (day 3) and must be ignored. -/
def tuesdayObs : List PriceObs :=
  [{ dayOfWeek := 2, hour := 5, value := 10 },
   { dayOfWeek := 2, hour := 5, value := 20 },
   { dayOfWeek := 3, hour := 5, value := 100 }]

/-- Witness for C9: on `tuesdayObs` the response has 24 entries; entry 5
averages only the two day-2 samples (mean 15, count 2), and entry 4 is
present with no average and count 0. -/
theorem hourly_averages_all_24_hours_witness :
    (hourlyAverages 2 tuesdayObs).length = 24 ∧
    (hourlyAverages 2 tuesdayObs).get? 5 = some
      { hour := 5, avgPrice := some 15, sampleCount := 2 } ∧
    (hourlyAverages 2 tuesdayObs).get? 4 = some
      { hour := 4, avgPrice := none, sampleCount := 0 } := by
  obtain ⟨hlen, hget⟩ := hourly_averages_all_24_hours 2 tuesdayObs
  refine ⟨hlen, ?_, ?_⟩
  · rw [hget 5 (by norm_num)]
    norm_num [tuesdayObs]
  · rw [hget 4 (by norm_num)]
    norm_num [tuesdayObs]

end WalkBuddy
